import Mathlib

/-!
Verification of the NNs-from-scratch training core against its specification.

The Python sources are embedded shallowly:
matrices (numpy 2-d arrays) become lists of rows of rationals, the elementwise
numpy operations used by the optimizer become the corresponding list
operations, and each function under scrutiny is transcribed statement by
statement from its source file (src/functions.py, src/optimizers.py,
src/model_selection.py, src/utility.py).
-/

/-- Matrices as lists of rows of rationals. Every numpy operation the
optimizer applies to weight, bias, gradient and momentum arrays is
elementwise, so this representation is exact. -/
abbrev Mat : Type := List (List ℚ)

/-- Elementwise matrix addition (np.add). -/
def madd (A B : Mat) : Mat := List.zipWith (fun r s => List.zipWith (· + ·) r s) A B

/-- Scalar times matrix (numpy scalar * array, elementwise). -/
def smul (c : ℚ) (A : Mat) : Mat := A.map (fun r => r.map (fun x => c * x))

/-- Matrix divided by a scalar (numpy array / scalar, elementwise). -/
def sdiv (A : Mat) (c : ℚ) : Mat := A.map (fun r => r.map (fun x => x / c))

/-- Matrix of zeros with the same shape as the given matrix. -/
def zeros_like (A : Mat) : Mat := A.map (fun r => r.map (fun _ => (0 : ℚ)))

/-- State touched by one iteration of the weight-update loop of
GradientDescent.optimize (src/optimizers.py lines 126-143) for one layer:
the accumulated batch gradients, the persistent momentum buffers, and the
layer parameters, for weights and biases alike. -/
structure LayerState where
  grad_w : Mat
  grad_b : Mat
  mom_w : Mat
  mom_b : Mat
  weights : Mat
  biases : Mat
deriving DecidableEq

/-- One iteration of the weight-update loop of GradientDescent.optimize
(src/optimizers.py lines 126-143), transcribed statement by statement:
grad_net /= float(batch_size); delta = lr * grad_net;
momentum_net *= momentum; momentum_net = np.add(momentum_net, delta);
layer.weights = np.add(layer.weights, momentum_net) and likewise for
biases. -/
def layer_update (lr momentum batch_size : ℚ) (s : LayerState) : LayerState :=
  let gw := sdiv s.grad_w batch_size
  let gb := sdiv s.grad_b batch_size
  let delta_w := smul lr gw
  let delta_b := smul lr gb
  let mw := madd (smul momentum s.mom_w) delta_w
  let mb := madd (smul momentum s.mom_b) delta_b
  { grad_w := gw, grad_b := gb, mom_w := mw, mom_b := mb,
    weights := madd s.weights mw, biases := madd s.biases mb }

/-- Weight update as the specification words describe it when a
regularization penalty is configured: the penalty gradient (already scaled
by lambd, e.g. 2 * lambd * w for L2) is added to the already-averaged batch
gradient, outside the batch-size division, and only on the weights (the
spec applies the penalty to the weight update). This definition follows the
words of the spec and is compared against layer_update, which is
transcribed from the source. -/
def layer_update_spec_reg (lr momentum batch_size : ℚ) (penalty : Mat) (s : LayerState) :
    LayerState :=
  let gw := sdiv s.grad_w batch_size
  let gb := sdiv s.grad_b batch_size
  let delta_w := smul lr (madd gw penalty)
  let delta_b := smul lr gb
  let mw := madd (smul momentum s.mom_w) delta_w
  let mb := madd (smul momentum s.mom_b) delta_b
  { grad_w := gw, grad_b := gb, mom_w := mw, mom_b := mb,
    weights := madd s.weights mw, biases := madd s.biases mb }

/-- lasso_l1 from src/functions.py lines 210-216: lambd * np.sum(np.abs(w)). -/
def lasso_l1 (w : Mat) (lambd : ℚ) : ℚ :=
  lambd * (w.map (fun r => (r.map (fun x => |x|)).sum)).sum

/-- lasso_l1_deriv from src/functions.py lines 219-234: a matrix shaped like w
whose entry is -lambd, lambd or 0 according to the sign of the entry of w
(w is a rectangular numpy array, so every row has the length of the first
row). -/
def lasso_l1_deriv (w : Mat) (lambd : ℚ) : Mat :=
  (List.range w.length).map (fun i =>
    (List.range (w.headD []).length).map (fun j =>
      let x := (w.getD i []).getD j 0
      if x < 0 then -lambd else if 0 < x then lambd else 0))

/-- ridge_l2 from src/functions.py lines 237-243: lambd * np.sum(np.square(w)). -/
def ridge_l2 (w : Mat) (lambd : ℚ) : ℚ :=
  lambd * (w.map (fun r => (r.map (fun x => x ^ 2)).sum)).sum

/-- ridge_l2_deriv from src/functions.py lines 246-252: 2 * lambd * w. -/
def ridge_l2_deriv (w : Mat) (lambd : ℚ) : Mat := smul (2 * lambd) w

/-- linear_lr_decay from src/functions.py lines 169-184, transcribed
statement by statement; step counters are naturals (the optimizer counts
batches), learning rates are rationals. -/
def linear_lr_decay (curr_lr base_lr final_lr : ℚ) (curr_step limit_step : ℕ) : ℚ :=
  if curr_step < limit_step ∧ final_lr < curr_lr then
    let decay_rate : ℚ := (curr_step : ℚ) / (limit_step : ℚ)
    (1 - decay_rate) * base_lr + decay_rate * final_lr
  else final_lr

/-- Helper: adding a zero matrix of matching shape is the identity, row level. -/
theorem zipWith_add_map_zero (r : List ℚ) :
    List.zipWith (· + ·) r (r.map fun _ => (0 : ℚ)) = r := by
  induction r with
  | nil => rfl
  | cons a t ih =>
    simp only [List.map_cons, List.zipWith_cons_cons, add_zero, ih]

/-- Helper: adding a zero matrix of matching shape is the identity. -/
theorem madd_zeros_like (A : Mat) : madd A (zeros_like A) = A := by
  unfold madd zeros_like
  induction A with
  | nil => rfl
  | cons r t ih =>
    simp only [List.map_cons, List.zipWith_cons_cons, List.cons.injEq]
    exact ⟨zipWith_add_map_zero r, ih⟩

/-- C4: in every batch update of GradientDescent.optimize the new momentum
buffer is momentum * old buffer + lr * g where g is the batch gradient
divided by the batch size, and the new weights are the old weights plus the
new buffer (same for biases); moreover this accumulating rule is not an
exponential moving average: at lr = 1, momentum = 1/2, buffer [[2]],
gradient [[2]], batch size 1 the code yields [[3]] while the
moving-average rule momentum * buffer + (1 - momentum) * delta yields [[2]]. -/
theorem C4_momentum_update (lr momentum bs : ℚ) (s : LayerState) :
    (layer_update lr momentum bs s).mom_w
        = madd (smul momentum s.mom_w) (smul lr (sdiv s.grad_w bs))
    ∧ (layer_update lr momentum bs s).mom_b
        = madd (smul momentum s.mom_b) (smul lr (sdiv s.grad_b bs))
    ∧ (layer_update lr momentum bs s).weights
        = madd s.weights (layer_update lr momentum bs s).mom_w
    ∧ (layer_update lr momentum bs s).biases
        = madd s.biases (layer_update lr momentum bs s).mom_b
    ∧ (layer_update 1 (1/2) 1
        { grad_w := [[2]], grad_b := [[0]], mom_w := [[2]], mom_b := [[0]],
          weights := [[0]], biases := [[0]] }).mom_w = [[3]]
    ∧ madd (smul (1/2) [[2]]) (smul (1 - 1/2) (smul 1 (sdiv [[2]] 1))) = [[2]] :=
  ⟨rfl, rfl, rfl, rfl, by norm_num [layer_update, madd, smul, sdiv],
   by norm_num [madd, smul, sdiv]⟩

/-- C6: linear_lr_decay returns the linear interpolation between base_lr and
final_lr at fraction curr_step / limit_step when curr_step < limit_step and
curr_lr > final_lr, and returns exactly final_lr in every other case; the
three concrete conjuncts exercise the interpolation branch, the at-limit
case, and the curr_lr <= final_lr case before the limit. -/
theorem C6_linear_lr_decay (curr base final : ℚ) (s L : ℕ) :
    linear_lr_decay curr base final s L =
      (if s < L ∧ final < curr
       then (1 - (s : ℚ) / (L : ℚ)) * base + ((s : ℚ) / (L : ℚ)) * final
       else final)
    ∧ linear_lr_decay (1/2) (1/2) (1/200) 3 10
        = (1 - (3 : ℚ)/10) * (1/2) + ((3 : ℚ)/10) * (1/200)
    ∧ linear_lr_decay (1/2) (1/2) (1/200) 10 10 = 1/200
    ∧ linear_lr_decay (1/300) (1/2) (1/200) 3 10 = 1/200 :=
  ⟨rfl, by norm_num [linear_lr_decay], by norm_num [linear_lr_decay],
   by norm_num [linear_lr_decay]⟩

/-- Concrete layer state for the regularization counterexample: one layer
with the single weight 1, zero accumulated gradient and zero momentum. -/
def regCexState : LayerState :=
  { grad_w := [[0]], grad_b := [[0]], mom_w := [[0]], mom_b := [[0]],
    weights := [[1]], biases := [[0]] }

/-- C1 counterexample: with lr = 1/2, momentum 0, batch size 1 and an L2
regularization configured with lambd = 1/5 on the weight matrix [[1]], the
update transcribed from GradientDescent.optimize leaves the weight at 1,
while the update the claim describes (penalty gradient added to the
already-averaged batch gradient) yields 6/5: the optimizer never adds any
lambd-scaled penalty to the weight update. -/
theorem C1_counterexample :
    (layer_update (1/2) 0 1 regCexState).weights = [[1]]
  ∧ (layer_update_spec_reg (1/2) 0 1 (ridge_l2_deriv [[1]] (1/5)) regCexState).weights
      = [[6/5]]
  ∧ ([[1]] : Mat) ≠ [[6/5]] := by
  refine ⟨by norm_num [layer_update, regCexState, madd, smul, sdiv], ?_, by norm_num⟩
  norm_num [layer_update_spec_reg, regCexState, ridge_l2_deriv, madd, smul, sdiv]

/-- C1 amended: the weight update of GradientDescent.optimize applies no
regularization penalty at all; it coincides, for every input, with the
update described by the spec where the penalty gradient is the zero
matrix. -/
theorem C1_amended (lr m bs : ℚ) (s : LayerState) :
    layer_update lr m bs s
      = layer_update_spec_reg lr m bs (zeros_like (sdiv s.grad_w bs)) s := by
  simp only [layer_update, layer_update_spec_reg, madd_zeros_like]

/-- Test weight matrix of the spec and of unit_tests/test_function.py:
w = [[1, 0.2, -1], [1, 0, 0.5]]. -/
def testW : Mat := [[1, 1/5, -1], [1, 0, 1/2]]

/-- Helper: indexing a map over List.range with an in-range index. -/
theorem getD_map_range {α : Type} (g : ℕ → α) (n i : ℕ) (d : α) (h : i < n) :
    ((List.range n).map g).getD i d = g i := by
  rw [List.getD_eq_getElem?_getD, List.getElem?_map, List.getElem?_range h]
  rfl

/-- C8: on the test matrix with lambd = 1/5 the L1 penalty is 37/50 = 0.74
and the L2 penalty is 329/500 = 0.658 (exactly, hence within 1e-6); for
every weight matrix the L1 derivative entry is -lambd, lambd or 0 according
to the sign of the corresponding weight, and the L2 derivative is exactly
2 * lambd * w elementwise. -/
theorem C8_regularization :
    lasso_l1 testW (1/5) = 37/50
  ∧ ridge_l2 testW (1/5) = 329/500
  ∧ (∀ (w : Mat) (lambd : ℚ) (i j : ℕ), i < w.length → j < (w.headD []).length →
      ((lasso_l1_deriv w lambd).getD i []).getD j 0 =
        (if (w.getD i []).getD j 0 < 0 then -lambd
         else if 0 < (w.getD i []).getD j 0 then lambd else 0))
  ∧ ∀ (w : Mat) (lambd : ℚ),
      ridge_l2_deriv w lambd = w.map (fun r => r.map (fun x => 2 * lambd * x)) := by
  refine ⟨by norm_num [lasso_l1, testW, abs_of_nonneg, abs_of_nonpos],
    by norm_num [ridge_l2, testW], ?_, ?_⟩
  · intro w lambd i j hi hj
    unfold lasso_l1_deriv
    rw [getD_map_range _ _ _ _ hi, getD_map_range _ _ _ _ hj]
  · intro w lambd
    rfl

/-- C8 witness: the hypotheses of the derivative-sign conjunct hold at the
test matrix with i = 0, j = 2, where the weight is -1 and the derivative
entry is -1/5. -/
theorem C8_witness :
    0 < testW.length ∧ 2 < (testW.headD []).length
  ∧ ((lasso_l1_deriv testW (1/5)).getD 0 []).getD 2 0 = -(1/5) := by
  refine ⟨by norm_num [testW], by norm_num [testW], ?_⟩
  have h := C8_regularization.2.2.1 testW (1/5) 0 2 (by norm_num [testW])
    (by norm_num [testW])
  rw [h]
  norm_num [testW, List.getD]

/-- Keyword view of a Python signature: the names of the parameters without
default values, the names with defaults, and whether the signature ends in
a catch-all keyword dictionary. -/
structure PySig where
  required : List String
  optional : List String
  varKwargs : Bool

/-- Signature of linear_lr_decay(curr_lr, base_lr, final_lr, curr_step,
limit_step, **kwargs) from src/functions.py line 169. -/
def linear_lr_decay_sig : PySig :=
  { required := ["curr_lr", "base_lr", "final_lr", "curr_step", "limit_step"],
    optional := [], varKwargs := true }

/-- Signature of exp_lr_decay(base_lr, decay_rate, curr_step, decay_steps,
staircase=False, **kwargs) from src/functions.py line 187. -/
def exp_lr_decay_sig : PySig :=
  { required := ["base_lr", "decay_rate", "curr_step", "decay_steps"],
    optional := ["staircase"], varKwargs := true }

/-- Python keyword-call binding: a call passing exactly the keyword
arguments named ks succeeds iff every required parameter receives a value
and, unless the signature has a catch-all keyword dictionary, every keyword
names a parameter; otherwise the call raises TypeError. -/
def kwCallOk (sig : PySig) (ks : List String) : Bool :=
  sig.required.all (fun p => ks.contains p) &&
    (sig.varKwargs || ks.all (fun k => (sig.required ++ sig.optional).contains k))

/-- Keyword arguments GradientDescent.optimize supplies to the decay
function at every batch (src/optimizers.py lines 120-124). -/
def optimize_decay_kwargs : List String :=
  ["curr_lr", "base_lr", "final_lr", "curr_step", "limit_step"]

/-- lr_decays dictionary from src/functions.py lines 291-294, mapping the
configured decay name to the signature of the dispatched function. -/
def lr_decays_sig (name : String) : Option PySig :=
  if name = "linear" then some linear_lr_decay_sig
  else if name = "exponential" then some exp_lr_decay_sig
  else none

/-- Learning-rate update performed once per batch by optimize when a decay
schedule is configured (src/optimizers.py lines 117-124): look the schedule
up in lr_decays and call its func with optimize_decay_kwargs; a required
parameter left unbound raises TypeError. -/
def optimize_lr_step (decay : String) : Except String Unit :=
  match lr_decays_sig decay with
  | none => Except.error "KeyError"
  | some sig =>
      if kwCallOk sig optimize_decay_kwargs then Except.ok ()
      else Except.error "TypeError"

/-- Number of batches per epoch in GradientDescent.optimize
(src/optimizers.py line 100): math.ceil(len(tr_x) / batch_size). -/
def numBatches (n bs : ℕ) : ℕ := (n + bs - 1) / bs

/-- Batch slices of one epoch (src/optimizers.py lines 100-104): batch i is
tr_x[i * batch_size : i * batch_size + batch_size]. -/
def epochBatches {α : Type} (tr : List α) (bs : ℕ) : List (List α) :=
  (List.range (numBatches tr.length bs)).map (fun i => (tr.drop (i * bs)).take bs)

/-- Gradient the code applies for a batch: the per-pattern gradients are
accumulated and the sum is divided by the configured batch_size
(src/optimizers.py lines 105-128), regardless of how many patterns the
batch actually holds; stated per matrix entry, the numpy division being
elementwise. -/
def batchAvgGrad (gs : List ℚ) (bs : ℕ) : ℚ := gs.sum / (bs : ℚ)

/-- C9: on a non-empty training set there is at least one batch per epoch,
and the learning-rate update optimize performs for the configured schedule
name exponential raises TypeError, because the call supplies only curr_lr,
base_lr, final_lr, curr_step and limit_step while exp_lr_decay also
requires decay_rate and decay_steps; the linear schedule, whose required
parameters are exactly the supplied ones, succeeds. -/
theorem C9_exponential_decay_unreachable (n bs : ℕ) (hn : 0 < n) (hbs : 0 < bs) :
    0 < numBatches n bs
  ∧ optimize_lr_step "exponential" = Except.error "TypeError"
  ∧ optimize_decay_kwargs.contains "decay_rate" = false
  ∧ optimize_decay_kwargs.contains "decay_steps" = false
  ∧ optimize_lr_step "linear" = Except.ok () := by
  refine ⟨?_, rfl, rfl, rfl, rfl⟩
  have h : bs ≤ n + bs - 1 := by omega
  exact (Nat.one_le_div_iff hbs).mpr h

/-- C9 witness: the hypotheses hold at a training set of one pattern and
batch size one. -/
theorem C9_witness :
    0 < numBatches 1 1
  ∧ optimize_lr_step "exponential" = Except.error "TypeError"
  ∧ optimize_decay_kwargs.contains "decay_rate" = false
  ∧ optimize_decay_kwargs.contains "decay_steps" = false
  ∧ optimize_lr_step "linear" = Except.ok () :=
  C9_exponential_decay_unreachable 1 1 (by decide) (by decide)

/-- C10: when the training-set size is not a multiple of batch_size, the
final batch of the epoch holds tr.length mod batch_size patterns, strictly
fewer than batch_size, and the gradient the code applies for it is the
accumulated sum divided by the configured batch_size, which equals the
ratio (actual batch length / batch_size) times the true per-pattern
average. -/
theorem C10_short_last_batch {α : Type} (tr : List α) (g : α → ℚ) (bs : ℕ)
    (hbs : 0 < bs) (hndvd : ¬ bs ∣ tr.length) :
    ((epochBatches tr bs).getLast?).map List.length = some (tr.length % bs)
  ∧ tr.length % bs < bs
  ∧ ∀ lb, (epochBatches tr bs).getLast? = some lb →
      batchAvgGrad (lb.map g) bs
        = ((lb.length : ℚ) / (bs : ℚ)) * ((lb.map g).sum / (lb.length : ℚ)) := by
  have hr : tr.length % bs ≠ 0 := fun h => hndvd ((Nat.dvd_iff_mod_eq_zero).mpr h)
  have hrlt : tr.length % bs < bs := Nat.mod_lt _ hbs
  have hmod := Nat.div_add_mod tr.length bs
  have hk : numBatches tr.length bs = tr.length / bs + 1 := by
    unfold numBatches
    have h1 : tr.length + bs - 1
        = (tr.length % bs - 1) + bs * (tr.length / bs + 1) := by
      have h2 : bs * (tr.length / bs + 1) = bs * (tr.length / bs) + bs := by ring
      omega
    rw [h1, Nat.add_mul_div_left _ _ hbs, Nat.div_eq_of_lt (by omega)]
    omega
  have hlast : (epochBatches tr bs).getLast?
      = some ((tr.drop (tr.length / bs * bs)).take bs) := by
    unfold epochBatches
    rw [List.getLast?_eq_getElem?]
    simp only [List.length_map, List.length_range, hk, Nat.add_sub_cancel]
    rw [List.getElem?_map, List.getElem?_range (Nat.lt_succ_self _)]
    rfl
  have hlen : ((tr.drop (tr.length / bs * bs)).take bs).length = tr.length % bs := by
    rw [List.length_take, List.length_drop]
    have hcomm : tr.length / bs * bs = bs * (tr.length / bs) := Nat.mul_comm _ _
    omega
  refine ⟨by rw [hlast]; simpa using hlen, hrlt, ?_⟩
  intro lb hlb
  have hlb2 : lb = (tr.drop (tr.length / bs * bs)).take bs := by
    rw [hlast] at hlb
    exact (Option.some.injEq _ _).mp hlb.symm
  have hlbl : lb.length = tr.length % bs := by rw [hlb2]; exact hlen
  have hL : ((lb.length : ℚ)) ≠ 0 := by
    rw [hlbl]
    exact_mod_cast hr
  have hB : ((bs : ℚ)) ≠ 0 := by
    exact_mod_cast Nat.pos_iff_ne_zero.mp hbs
  unfold batchAvgGrad
  field_simp
  ring

/-- C10 witness: the hypotheses hold for the training set [1, 2, 3] with
batch size 2, whose final batch holds a single pattern. -/
theorem C10_witness :
    ((epochBatches ([1, 2, 3] : List ℚ) 2).getLast?).map List.length
        = some (([1, 2, 3] : List ℚ).length % 2)
  ∧ ([1, 2, 3] : List ℚ).length % 2 < 2
  ∧ ∀ lb, (epochBatches ([1, 2, 3] : List ℚ) 2).getLast? = some lb →
      batchAvgGrad (lb.map id) 2
        = ((lb.length : ℚ) / (2 : ℚ)) * ((lb.map id).sum / (lb.length : ℚ)) :=
  C10_short_last_batch ([1, 2, 3] : List ℚ) id 2 (by decide) (by decide)

/-- Sizes of the k sections np.array_split produces for n elements, as in
the numpy source relied on by cross_valid (src/model_selection.py lines
8-9): with divmod(n, k) = (q, r) the first r sections get q + 1 elements
and the remaining k - r sections get q. -/
def array_split_sizes (n k : ℕ) : List ℕ :=
  List.replicate (n % k) (n / k + 1) ++ List.replicate (k - n % k) (n / k)

/-- Successive contiguous slices of the given lengths. -/
def takeSlices {α : Type} : List ℕ → List α → List (List α)
  | [], _ => []
  | s :: ss, l => l.take s :: takeSlices ss (l.drop s)

/-- np.array_split(l, k) over the list model. -/
def array_split {α : Type} (l : List α) (k : ℕ) : List (List α) :=
  takeSlices (array_split_sizes l.length k) l

/-- Helper: the concatenation of the slices is the prefix of the list of
length the sum of the slice sizes. -/
theorem takeSlices_join {α : Type} (ss : List ℕ) (l : List α) :
    (takeSlices ss l).flatten = l.take ss.sum := by
  induction ss generalizing l with
  | nil => simp [takeSlices]
  | cons s ss ih =>
    simp only [takeSlices, List.flatten_cons, ih, List.sum_cons]
    exact (List.take_add l s ss.sum).symm

/-- Helper: takeSlices yields one slice per requested size. -/
theorem takeSlices_length {α : Type} (ss : List ℕ) (l : List α) :
    (takeSlices ss l).length = ss.length := by
  induction ss generalizing l with
  | nil => rfl
  | cons s ss ih => simp [takeSlices, ih]

/-- Helper: when the sizes fit in the list, each slice has exactly the
requested length. -/
theorem takeSlices_lengths {α : Type} (ss : List ℕ) (l : List α)
    (h : ss.sum ≤ l.length) :
    (takeSlices ss l).map List.length = ss := by
  induction ss generalizing l with
  | nil => rfl
  | cons s ss ih =>
    simp only [List.sum_cons] at h
    simp only [takeSlices, List.map_cons, List.length_take, List.cons.injEq]
    refine ⟨Nat.min_eq_left (by omega), ih _ ?_⟩
    rw [List.length_drop]
    omega

/-- Helper: the section sizes of np.array_split sum to the element count. -/
theorem array_split_sizes_sum (n k : ℕ) (hk : 0 < k) :
    (array_split_sizes n k).sum = n := by
  unfold array_split_sizes
  rw [List.sum_append, List.sum_replicate, List.sum_replicate, smul_eq_mul, smul_eq_mul]
  have h1 := Nat.div_add_mod n k
  have h2 : n % k < k := Nat.mod_lt _ hk
  have h3 : (k - n % k) * (n / k) = k * (n / k) - n % k * (n / k) := Nat.sub_mul _ _ _
  have h4 : n % k * (n / k) ≤ k * (n / k) := Nat.mul_le_mul_right _ (le_of_lt h2)
  have h5 : n % k * (n / k + 1) = n % k * (n / k) + n % k := by ring
  omega

/-- Helper: the i-th section size is q + 1 for i below the remainder and q
otherwise. -/
theorem array_split_sizes_getD (n k i : ℕ) (hk : 0 < k) :
    (array_split_sizes n k).getD i (n / k)
      = if i < n % k then n / k + 1 else n / k := by
  unfold array_split_sizes
  have h2 : n % k < k := Nat.mod_lt _ hk
  by_cases h : i < n % k
  · rw [if_pos h, List.getD_append _ _ _ _ (by simpa using h),
      List.getD_eq_getElem?_getD, List.getElem?_replicate, if_pos h]
    rfl
  · rw [if_neg h]
    by_cases hik : i < k
    · rw [List.getD_append_right _ _ _ _ (by simpa using h),
        List.getD_eq_getElem?_getD, List.getElem?_replicate,
        if_pos (by simp only [List.length_replicate]; omega)]
      rfl
    · rw [List.getD_eq_getElem?_getD, List.getElem?_eq_none ?_]
      · rfl
      · simp only [List.length_append, List.length_replicate]
        omega

/-- C3 counterexample: for 7 rows and 3 folds the code produces contiguous
folds of sizes [3, 2, 2]: the first fold absorbs the remainder, not the
last, and the fold whose size differs from the others is the first one,
contradicting the claimed sizes [2, 2, 3]. -/
theorem C3_counterexample :
    (array_split (List.range 7) 3).map List.length = [3, 2, 2]
  ∧ ([3, 2, 2] : List ℕ) ≠ [2, 2, 3]
  ∧ array_split (List.range 7) 3 = [[0, 1, 2], [3, 4], [5, 6]] := by
  refine ⟨by decide, by decide, by decide⟩

/-- C3 amended: cross_valid splits the data into k contiguous folds of
near-equal size whose concatenation is the original list, but when k does
not divide the row count it is the FIRST (row count mod k) folds that are
one element larger; every other fold has size (row count) / k. -/
theorem C3_amended {α : Type} (l : List α) (k : ℕ) (hk : 0 < k) :
    (array_split l k).flatten = l
  ∧ (array_split l k).length = k
  ∧ (array_split l k).map List.length = array_split_sizes l.length k
  ∧ ∀ i, (array_split_sizes l.length k).getD i (l.length / k)
      = if i < l.length % k then l.length / k + 1 else l.length / k := by
  have hsum := array_split_sizes_sum l.length k hk
  have h2 : l.length % k < k := Nat.mod_lt _ hk
  refine ⟨?_, ?_, ?_, fun i => array_split_sizes_getD l.length k i hk⟩
  · rw [array_split, takeSlices_join, hsum, List.take_length]
  · rw [array_split, takeSlices_length]
    unfold array_split_sizes
    simp only [List.length_append, List.length_replicate]
    omega
  · rw [array_split, takeSlices_lengths _ _ (le_of_eq hsum)]

/-- C3 witness: the amended statement holds at 5 rows and 3 folds. -/
theorem C3_witness :
    (array_split (List.range 5) 3).flatten = List.range 5
  ∧ (array_split (List.range 5) 3).length = 3 :=
  ⟨(C3_amended (List.range 5) 3 (by decide)).1,
   (C3_amended (List.range 5) 3 (by decide)).2.1⟩

/-- Modelled from the spec: the Network class (network/network.py) is not
under src/, only its callers are. Per the spec (section 3, Network
lifecycle) a Network is constructed from hyperparameters with freshly
initialized weights, and training mutates the weights in place. For the
freshness question only this much matters, so the weights are tracked
abstractly by the number of training runs they have absorbed since their
initialization: freshly initialized means zero. -/
structure NetModel (P : Type) where
  params : P
  timesTrained : ℕ
deriving DecidableEq

/-- Modelled from the spec: Network(**params) builds a network from the
hyperparameters with freshly initialized weights. -/
def NetModel.new {P : Type} (p : P) : NetModel P := ⟨p, 0⟩

/-- Modelled from the spec: net.fit runs the full epoch loop, mutating the
weights of the network it is called on and leaving its construction
hyperparameters unchanged. -/
def NetModel.fit {P : Type} (n : NetModel P) : NetModel P :=
  ⟨n.params, n.timesTrained + 1⟩

/-- Network each fold of cross_valid trains, in fold order
(src/model_selection.py lines 16-52): fold i compiles and fits the current
net, and only after the fold has been trained is the net replaced by
Network(**net.params). -/
def cross_valid_fold_nets {P : Type} : NetModel P → ℕ → List (NetModel P)
  | _, 0 => []
  | n, Nat.succ k =>
      n :: cross_valid_fold_nets (NetModel.new (NetModel.fit n).params) k

/-- C2 counterexample: calling cross_valid with a network that has already
been trained makes the first fold train on those partially trained weights:
the already-fit network is among the fold-start networks and its weights
are not freshly initialized. cross_valid never reconstructs the network
before the first fold, only after each fold. -/
theorem C2_counterexample :
    NetModel.fit (NetModel.new ()) ∈
      cross_valid_fold_nets (NetModel.fit (NetModel.new ())) 2
  ∧ (NetModel.fit (NetModel.new ())).timesTrained ≠ 0 := by
  refine ⟨by decide, by decide⟩

/-- Helper: starting from a fresh network every fold of cross_valid starts
on a fresh network with the same hyperparameters. -/
theorem cross_valid_fold_nets_fresh {P : Type} (p : P) (k : ℕ) :
    cross_valid_fold_nets (NetModel.new p) k
      = List.replicate k (NetModel.new p) := by
  induction k with
  | zero => rfl
  | succ k ih =>
    show NetModel.new p :: cross_valid_fold_nets
        (NetModel.new (NetModel.fit (NetModel.new p)).params) k
      = NetModel.new p :: List.replicate k (NetModel.new p)
    rw [show (NetModel.fit (NetModel.new p)).params = p from rfl, ih]

/-- C2 amended: within one cross_valid call every fold after the first
trains a brand-new network, freshly initialized from the same
hyperparameters; the first fold trains the caller-supplied network exactly
as it was passed in, so it starts from fresh weights only when the caller
constructed it fresh. -/
theorem C2_amended {P : Type} (net0 : NetModel P) (k : ℕ) :
    cross_valid_fold_nets net0 (k + 1)
      = net0 :: List.replicate k (NetModel.new net0.params)
  ∧ (NetModel.new net0.params).timesTrained = 0 := by
  refine ⟨?_, rfl⟩
  show net0 :: cross_valid_fold_nets (NetModel.new (NetModel.fit net0).params) k = _
  rw [show (NetModel.fit net0).params = net0.params from rfl,
    cross_valid_fold_nets_fresh]

/-- Candidate value of one hyperparameter in a grid, covering the value
shapes list_of_combos handles (src/utility.py lines 219-253): None,
strings, numbers, booleans, and the tuples used for units_per_layer and
acts; numeric candidates are opaque to the function, so naturals stand for
them. -/
inductive PVal where
  | none
  | s (v : String)
  | n (v : ℕ)
  | b (v : Bool)
  | tupN (v : List ℕ)
  | tupS (v : List String)
deriving DecidableEq

/-- Python len applied to a candidate value, defined on the tuple shapes
(grids supply tuples for units_per_layer and acts; on any other shape len
is undefined and the comparison below is None = None). -/
def plen : PVal → Option ℕ
  | PVal.tupN v => some v.length
  | PVal.tupS v => some v.length
  | _ => Option.none

/-- Cartesian product of the candidate lists in sorted-key order, in the
row-major order of itertools.product (src/utility.py line 233). A
combination is the list of one candidate per key in the sorted key order
of expected_keys (src/utility.py lines 226-228): acts 0, batch_size 1,
decay_rate 2, decay_steps 3, epochs 4, init_type 5, lambd 6, limit_step 7,
limits 8, loss 9, lr 10, lr_decay 11, metr 12, momentum 13, reg_type 14,
staircase 15, units_per_layer 16; this is also the content of the
dictionary the code builds from the tuple. -/
def prodAll : List (List PVal) → List (List PVal)
  | [] => [[]]
  | xs :: rest => xs.flatMap (fun x => (prodAll rest).map (fun c => x :: c))

/-- Length filter of list_of_combos (src/utility.py line 236):
len(c[units_per_layer index]) == len(c[acts index]). -/
def comboLenOk (c : List PVal) : Bool :=
  plen (c.getD 16 PVal.none) == plen (c.getD 0 PVal.none)

/-- Reconciliation of decay-schedule fields performed on every combination
(src/utility.py lines 240-246): linear decay forces decay_rate and
decay_steps to None and staircase to False; exponential decay forces
limit_step to None. -/
def reconcile (c : List PVal) : List PVal :=
  if c.getD 11 PVal.none = PVal.s "linear" then
    ((c.set 2 PVal.none).set 3 PVal.none).set 15 (PVal.b false)
  else if c.getD 11 PVal.none = PVal.s "exponential" then
    c.set 7 PVal.none
  else c

/-- Final loop of list_of_combos (src/utility.py lines 248-251): for i in
range(len(combos) - 1), combos[i] is appended iff it differs from
combos[i + 1]; the last combination is never appended. -/
def dropAdjacent (l : List (List PVal)) : List (List PVal) :=
  (l.zip l.tail).filterMap (fun p => if p.1 ≠ p.2 then some p.1 else Option.none)

/-- list_of_combos from src/utility.py lines 219-253 for a grid given as
the 17 candidate tuples in sorted-key order (the code first fills absent
keys with defaults and sorts the keys; the grid here is that normalized
dictionary): Cartesian product, length filter, decay reconciliation,
then the adjacent-duplicate loop. -/
def list_of_combos (grid : List (List PVal)) : List (List PVal) :=
  dropAdjacent (((prodAll grid).filter comboLenOk).map reconcile)

/-- Helper: setting one position leaves every other position unchanged. -/
theorem getD_set_ne (l : List PVal) (i j : ℕ) (a d : PVal) (h : i ≠ j) :
    (l.set i a).getD j d = l.getD j d := by
  rw [List.getD_eq_getElem?_getD, List.getD_eq_getElem?_getD, List.getElem?_set_ne h]

/-- Helper: reconciliation does not touch the acts entry. -/
theorem reconcile_getD_0 (c : List PVal) :
    (reconcile c).getD 0 PVal.none = c.getD 0 PVal.none := by
  unfold reconcile
  split
  · rw [getD_set_ne _ _ _ _ _ (by decide), getD_set_ne _ _ _ _ _ (by decide),
      getD_set_ne _ _ _ _ _ (by decide)]
  · split
    · rw [getD_set_ne _ _ _ _ _ (by decide)]
    · rfl

/-- Helper: reconciliation does not touch the units_per_layer entry. -/
theorem reconcile_getD_16 (c : List PVal) :
    (reconcile c).getD 16 PVal.none = c.getD 16 PVal.none := by
  unfold reconcile
  split
  · rw [getD_set_ne _ _ _ _ _ (by decide), getD_set_ne _ _ _ _ _ (by decide),
      getD_set_ne _ _ _ _ _ (by decide)]
  · split
    · rw [getD_set_ne _ _ _ _ _ (by decide)]
    · rfl

/-- C7: every combination in the list returned by list_of_combos has
len(units_per_layer) equal to len(acts): combinations with mismatched
lengths never survive the filter, and the later reconciliation and
duplicate-dropping steps touch neither entry. -/
theorem C7_length_filter (grid : List (List PVal)) (c : List PVal)
    (hc : c ∈ list_of_combos grid) :
    plen (c.getD 16 PVal.none) = plen (c.getD 0 PVal.none) := by
  obtain ⟨p, hp, hpe⟩ := List.mem_filterMap.mp hc
  have hc1 : p.1 = c := by
    by_cases h : p.1 ≠ p.2
    · rw [if_pos h] at hpe
      exact Option.some.inj hpe
    · rw [if_neg h] at hpe
      cases hpe
  have hmem : p.1 ∈ ((prodAll grid).filter comboLenOk).map reconcile := by
    obtain ⟨a, b⟩ := p
    exact (List.of_mem_zip hp).1
  rw [hc1] at hmem
  obtain ⟨c0, hc0, hrc⟩ := List.mem_map.mp hmem
  have hfil : comboLenOk c0 = true := (List.mem_filter.mp hc0).2
  have heq : plen (c0.getD 16 PVal.none) = plen (c0.getD 0 PVal.none) := by
    simpa [comboLenOk] using hfil
  rw [← hrc, reconcile_getD_16, reconcile_getD_0]
  exact heq

/-- Grid used for the C7 witness: a fixed two-element acts candidate,
units_per_layer candidates of lengths 2 and 1, and two lr candidates so
the surviving combinations are not all dropped by the final loop. -/
def gridC7 : List (List PVal) :=
  [[PVal.tupS ["relu", "tanh"]],
   [PVal.n 10],
   [PVal.none],
   [PVal.none],
   [PVal.n 100],
   [PVal.s "random"],
   [PVal.n 0],
   [PVal.none],
   [PVal.none],
   [PVal.s "squared"],
   [PVal.n 1, PVal.n 2],
   [PVal.none],
   [PVal.s "bin_class_acc"],
   [PVal.n 5],
   [PVal.s "l2"],
   [PVal.b false],
   [PVal.tupN [4, 1], PVal.tupN [4]]]

/-- C7 witness: the first combination returned on gridC7 is a member of the
returned list and satisfies the length equality. -/
theorem C7_witness :
    plen (((list_of_combos gridC7).headD []).getD 16 PVal.none)
      = plen (((list_of_combos gridC7).headD []).getD 0 PVal.none) :=
  C7_length_filter gridC7 ((list_of_combos gridC7).headD []) (by decide)

/-- Grid with exactly one candidate per hyperparameter and matching
units_per_layer/acts lengths: the grid holds exactly one valid
combination. -/
def gridC5 : List (List PVal) :=
  [[PVal.tupS ["relu"]],
   [PVal.n 10],
   [PVal.none],
   [PVal.none],
   [PVal.n 100],
   [PVal.s "random"],
   [PVal.n 0],
   [PVal.none],
   [PVal.none],
   [PVal.s "squared"],
   [PVal.n 1],
   [PVal.none],
   [PVal.s "bin_class_acc"],
   [PVal.n 5],
   [PVal.s "l2"],
   [PVal.b false],
   [PVal.tupN [4]]]

/-- C5: the final loop of list_of_combos never appends the last
combination, so a distinct valid combination can be missing from the
returned list: on a grid holding exactly one valid combination the
function returns the empty list even though exactly one combination
survives the length filter and reconciliation. -/
theorem C5_last_combo_dropped :
    list_of_combos gridC5 = []
  ∧ (((prodAll gridC5).filter comboLenOk).map reconcile).length = 1 := by
  refine ⟨by decide, by decide⟩
